import Mathlib

/-!
Verification of the pulsar-cat command-line bridge (Rust) against its
natural-language specification.  Strings from the Rust side are modelled as
`List Char` (byte positions coincide with character positions for the ASCII
inputs exercised here); fallible code returns `Except`; the concurrent parts
(produce pipeline, producer mutex) are modelled as explicit step relations
on state records mirroring the variables of `run_produce`.
-/

namespace PulsarCat

/-- Errors of the application, mirroring `src/error.rs` (`PulsarCatError`):
the `Application(anyhow::Error)` and `Pulsar(pulsar::Error)` variants, with
the wrapped errors abstracted to their message strings. -/
inductive PulsarCatError where
  | application (msg : String)
  | pulsar (msg : String)
deriving DecidableEq, Repr

/-- `exitCode` mirrors `main`/`run` in `src/main.rs`: an `Ok` result from the
operation yields process exit 0; an `Err` propagates and the process exits
non-zero (modelled as 1). -/
def exitCode (r : Except PulsarCatError Unit) : Nat :=
  match r with
  | .ok _ => 0
  | .error _ => 1

/-- `occursAt d l p` says the delimiter `d` occurs in `l` starting at
position `p` (Rust `str::find` semantics: the earliest such `p` is
returned). -/
def occursAt (d l : List Char) (p : Nat) : Prop :=
  d.isPrefixOf (l.drop p) = true

instance (d l : List Char) (p : Nat) : Decidable (occursAt d l p) := by
  unfold occursAt; infer_instance

/-- `findSub d l` is the position of the first occurrence of `d` in `l`,
modelling Rust `line.find(&delimiter)` from `src/op/produce_op.rs` line 113
(byte indices = char indices on ASCII input). -/
def findSub (d : List Char) : List Char → Option Nat
  | [] => if d.isPrefixOf ([] : List Char) then some 0 else none
  | c :: t =>
    if d.isPrefixOf (c :: t) then some 0
    else (findSub d t).map (· + 1)

/-- The key/payload split of one input line, from `run_produce` in
`src/op/produce_op.rs` lines 111-129: split at the first occurrence of the
delimiter; if the delimiter is absent and the key is enforced, fail; if no
delimiter is configured, the whole line is the payload. -/
def parse_line (key_delim : Option (List Char)) (enforce_key : Bool)
    (line : List Char) :
    Except PulsarCatError (Option (List Char) × List Char) :=
  match key_delim with
  | some delimiter =>
    match findSub delimiter line with
    | some delimiter_pos =>
      .ok (some (line.take delimiter_pos),
           line.drop (delimiter_pos + delimiter.length))
    | none =>
      if enforce_key then
        .error (.application
          "Key is enforced but delimiter not found in the message")
      else
        .ok (none, line)
  | none => .ok (none, line)

/-- The message-construction stage of each send unit, from
`src/op/produce_op.rs` lines 131-150: after the split, a missing key under
enforcement is rejected before any submission; otherwise the (key, payload)
pair is submitted to the producer and the acknowledgment awaited. -/
def processLine (key_delim : Option (List Char)) (enforce_key : Bool)
    (line : List Char) :
    Except PulsarCatError (Option (List Char) × List Char) :=
  match parse_line key_delim enforce_key line with
  | .error e => .error e
  | .ok (message_key, message_data) =>
    match message_key with
    | some key => .ok (some key, message_data)
    | none =>
      if enforce_key then
        .error (.application
          "Message key is required but not provided, please use --key to set the delimiter.")
      else
        .ok (none, message_data)

/-- Messages actually submitted to the broker for one line: the submission
happens only after `processLine` succeeds (`send_non_blocking` at
`src/op/produce_op.rs` line 145), so a failed unit submits nothing. -/
def submittedFor (key_delim : Option (List Char)) (enforce_key : Bool)
    (line : List Char) : List (Option (List Char) × List Char) :=
  match processLine key_delim enforce_key line with
  | .ok m => [m]
  | .error _ => []

/-- One message delivered by the broker consumer, as read by `run_consume`
in `src/op/consume_op.rs` (payload bytes, message id rendered via `Debug`,
optional key, publish time, header properties).  Payload bytes are modelled
as chars (exact for the ASCII payloads exercised here); the lossy UTF-8
decode `String::from_utf8_lossy` is the identity on this model. -/
structure ConsumedMessage where
  topic : List Char
  message_id : List Char
  key : Option (List Char)
  payload : List Char
  publish_time : Nat
  headers : List (List Char × List Char)
deriving DecidableEq, Repr

/-- `DisplayOpts` from `src/cli_options.rs` lines 54-72: the `--format`
string and the `--json` flag are independent arguments with no
`conflicts_with` relation between them. -/
structure DisplayOpts where
  format : Option (List Char)
  json : Bool
deriving DecidableEq, Repr

/-- Decimal rendering of a number (`to_string` on the Rust side). -/
def natChars (n : Nat) : List Char := (Nat.repr n).data

/-- Header rendering used by the `%h` placeholder: each header becomes
`key=value` and the pairs are joined by `", "`
(`src/op/consume_op.rs` lines 341-347). -/
def renderHeaders (headers : List (List Char × List Char)) : List Char :=
  List.intercalate (", ".toList) (headers.map (fun h => h.1 ++ '=' :: h.2))

/-- Grouped arguments of `format_message`
(`src/op/consume_op.rs` lines 320-328). -/
structure FmtArgs where
  topic : List Char
  message_id : List Char
  key : Option (List Char)
  payload : List Char
  timestamp : Nat
  headers : List (List Char × List Char)
deriving DecidableEq, Repr

/-- Expansion of the character following a `%`, from the `match c` in
`format_message` (`src/op/consume_op.rs` lines 334-354): `t`=topic,
`p` and `o` both map to the message id, `k`=key or empty, `s`=payload,
`S`=payload length, `h`=headers, `T`=timestamp, `%%`=literal percent, and
any other character is passed through as `%` followed by it. -/
def expandCode (a : FmtArgs) (c : Char) : List Char :=
  if c = 't' then a.topic
  else if c = 'p' then a.message_id
  else if c = 'o' then a.message_id
  else if c = 'k' then a.key.getD []
  else if c = 's' then a.payload
  else if c = 'S' then natChars a.payload.length
  else if c = 'h' then renderHeaders a.headers
  else if c = 'T' then natChars a.timestamp
  else if c = '%' then ['%']
  else ['%', c]

/-- The character loop of `format_message` (`src/op/consume_op.rs` lines
329-361), with the `in_placeholder` flag threaded through; the trailing
`if in_placeholder` push of `'%'` (lines 363-366) is the `[]`-with-`true`
case. -/
def formatScan (a : FmtArgs) : List Char → Bool → List Char
  | [], in_placeholder => if in_placeholder then ['%'] else []
  | c :: rest, true => expandCode a c ++ formatScan a rest false
  | c :: rest, false =>
    if c = '%' then formatScan a rest true else c :: formatScan a rest false

/-- `format_message` from `src/op/consume_op.rs` lines 320-369. -/
def format_message (format_str : List Char) (a : FmtArgs) : List Char :=
  formatScan a format_str false

/-- Modelled from the spec wording of the claim, for comparison with the
embedded `format_message`: a single left-to-right scan in which `%` begins
a two-character placeholder and a trailing unmatched `%` is emitted
literally. -/
def formatSpec (a : FmtArgs) : List Char → List Char
  | [] => []
  | ['%'] => ['%']
  | '%' :: c :: rest => expandCode a c ++ formatSpec a rest
  | c :: rest => c :: formatSpec a rest

/-- The JSON envelope produced for a message in JSON mode
(`src/op/consume_op.rs` lines 100-108 and 232-240): fixed fields topic,
message_id, key, payload, payload_size, publish_time; headers omitted.
The concrete field layout chosen by serde is irrelevant to the claims,
which never inspect this string. -/
def jsonEnvelope (m : ConsumedMessage) : List Char :=
  "\x7b\"topic\":\"".toList ++ m.topic
    ++ "\",\"message_id\":\"".toList ++ m.message_id
    ++ "\",\"key\":".toList
    ++ (match m.key with
        | some k => '"' :: (k ++ ['"'])
        | none => "null".toList)
    ++ ",\"payload\":\"".toList ++ m.payload
    ++ "\",\"payload_size\":".toList ++ natChars m.payload.length
    ++ ",\"publish_time\":".toList ++ natChars m.publish_time
    ++ "\x7d".toList

/-- The per-message rendering dispatch, identical in the probe block and the
main loop of `run_consume` (`src/op/consume_op.rs` lines 97-125 and
229-257): JSON mode first, else the custom format string, else the plain
payload. -/
def renderMessage (display : DisplayOpts) (m : ConsumedMessage) : List Char :=
  if display.json then jsonEnvelope m
  else
    match display.format with
    | some format_str =>
      format_message format_str
        ⟨m.topic, m.message_id, m.key, m.payload, m.publish_time, m.headers⟩
    | none => m.payload

/-- Consumer options relevant to the consume path
(`src/cli_options.rs` lines 143-175). -/
structure ConsumerOpts where
  topic : List Char
  exit : Bool
  display : DisplayOpts
deriving DecidableEq, Repr

/-- `impl OpValidate for ConsumerOpts` (`src/op/consume_op.rs` lines
381-385): consumer validation always succeeds, enforcing no mutual
exclusivity between display modes. -/
def ConsumerOpts.validate (_ : ConsumerOpts) : Except PulsarCatError Unit :=
  .ok ()

/-- Producer options relevant to the produce path
(`src/cli_options.rs` lines 97-135). -/
structure ProducerOpts where
  topic : List Char
  key : Option (List Char)
  enforce_key : Bool
deriving DecidableEq, Repr

/-- `impl OpValidate for ProducerOpts` (`src/cli_options.rs` lines
137-141): producer startup validation always succeeds, checking nothing. -/
def ProducerOpts.validate (_ : ProducerOpts) : Except PulsarCatError Unit :=
  .ok ()

/-- `TIMEOUT_DURATION` from `src/op/consume_op.rs` line 58: the receive
timeout, in milliseconds, used both for the first probe receive and for
every receive in the loop when early exit is enabled. -/
def TIMEOUT_DURATION : Nat := 300

/-- `MAX_IDLE_TIME` from `src/op/consume_op.rs` line 60: the idle threshold
in milliseconds. -/
def MAX_IDLE_TIME : Nat := 1000

/-- The timeout applied to each receive in the main loop
(`src/op/consume_op.rs` lines 166-170): `TIMEOUT_DURATION` when early exit
is enabled, unbounded otherwise. -/
def recvTimeoutMs (early_exit : Bool) : Option Nat :=
  if early_exit then some TIMEOUT_DURATION else none

/-- The idle-tracking variables of `run_consume`
(`src/op/consume_op.rs` lines 54-55). -/
structure LoopState where
  got_at_least_one_message : Bool
  last_message_time : Nat
deriving DecidableEq, Repr

/-- Outcome of one `consumer.try_next()` (with optional timeout): elapsed
timeout, a delivered message, end of stream (`Ok(None)`), or a broker
receive error. -/
inductive RecvOutcome where
  | timedOut
  | gotMsg (m : ConsumedMessage)
  | streamEnd
  | recvErr (e : String)
deriving DecidableEq, Repr

/-- Effect of one iteration of the main loop: whether the loop `break`s,
the updated idle state, and the rendering emitted (for a received
message). -/
structure IterStep where
  breaks : Bool
  state : LoopState
  rendering : Option (List Char)
deriving DecidableEq, Repr

/-- One iteration of the main consumption loop of `run_consume`
(`src/op/consume_op.rs` lines 164-305), for a resolved receive outcome at
wall-clock time `now` (milliseconds): first the pre-select idle check
(lines 172-186, `break` when early exit is on, a message was seen, and
`now - last_message_time > MAX_IDLE_TIME`); then the select branch on the
resolved receive (lines 188-292): a timeout `break`s when a message was
seen and `now - last_message_time > MAX_IDLE_TIME / 2`, or immediately when
none was seen; a message is rendered and acknowledged and updates the idle
state; end of stream `break`s only under early exit; a receive error always
`break`s.  Natural subtraction models
`duration_since(..).unwrap_or(ZERO)`. -/
def loopIter (early_exit : Bool) (display : DisplayOpts) (st : LoopState)
    (now : Nat) (oc : RecvOutcome) : IterStep :=
  if early_exit && st.got_at_least_one_message
      && decide (now - st.last_message_time > MAX_IDLE_TIME) then
    ⟨true, st, none⟩
  else
    match oc with
    | .timedOut =>
      if st.got_at_least_one_message then
        if now - st.last_message_time > MAX_IDLE_TIME / 2 then
          ⟨true, st, none⟩
        else
          ⟨false, st, none⟩
      else
        ⟨true, st, none⟩
    | .gotMsg m => ⟨false, ⟨true, now⟩, some (renderMessage display m)⟩
    | .streamEnd => if early_exit then ⟨true, st, none⟩ else ⟨false, st, none⟩
    | .recvErr _ => ⟨true, st, none⟩

/-- Renderings emitted by the main loop of `run_consume` over a sequence of
timed receive outcomes, stopping at the first `break`; exhausting the
supplied outcomes is read as the external interrupt arriving (the
`ctrl_c` select branch, `src/op/consume_op.rs` lines 287-292), which also
ends the loop. -/
def consumeLoopGo (early_exit : Bool) (display : DisplayOpts) :
    LoopState → List (Nat × RecvOutcome) → List (List Char)
  | _, [] => []
  | st, (now, oc) :: rest =>
    let step := loopIter early_exit display st now oc
    if step.breaks then step.rendering.toList
    else step.rendering.toList ++ consumeLoopGo early_exit display step.state rest

/-- Aggregate outcome of a consume run: the message renderings emitted, in
order, whether the consumer handle was closed, and the returned result. -/
structure ConsumeRun where
  renderings : List (List Char)
  consumerClosed : Bool
  result : Except PulsarCatError Unit
deriving Repr

/-- `run_consume` after the consumer is built
(`src/op/consume_op.rs` lines 51-316), driven by the sequence of timed
receive outcomes the broker produces.  With early exit, the first outcome
is the probe receive (lines 63-161): a probe timeout or end of stream
returns `Ok` at once after closing the consumer; a probe receive error
closes the consumer and propagates the error; a probe message is rendered
and acknowledged and the loop starts with the idle clock at the probe
time.  Every loop exit falls through to the graceful close and `Ok(())`
(lines 307-315). -/
def runConsumeModel (early_exit : Bool) (display : DisplayOpts)
    (events : List (Nat × RecvOutcome)) : ConsumeRun :=
  if early_exit then
    match events with
    | [] => ⟨[], true, .ok ()⟩
    | (t, oc) :: rest =>
      match oc with
      | .timedOut => ⟨[], true, .ok ()⟩
      | .streamEnd => ⟨[], true, .ok ()⟩
      | .recvErr e => ⟨[], true, .error (.pulsar e)⟩
      | .gotMsg m =>
        ⟨renderMessage display m :: consumeLoopGo true display ⟨true, t⟩ rest,
         true, .ok ()⟩
  else ⟨consumeLoopGo false display ⟨false, 0⟩ events, true, .ok ()⟩

/-- Stdout notice printed when the probe receive times out
(`src/op/consume_op.rs` line 69). -/
def emptyTopicNotice : List Char :=
  "No messages available in topic (empty topic), exiting...".toList

/-- Stdout notice printed at the graceful close
(`src/op/consume_op.rs` lines 78 and 313). -/
def consumerShutdownNotice : List Char := "Consumer shut down".toList

/-- Stdout lines printed by the probe block of `run_consume` for each probe
outcome (`src/op/consume_op.rs` lines 63-161); JSON mode suppresses the
human-readable chatter. -/
def probeStdout (display : DisplayOpts) : RecvOutcome → List (List Char)
  | .timedOut =>
    if display.json then [] else [emptyTopicNotice, consumerShutdownNotice]
  | .streamEnd =>
    if display.json then []
    else ["No messages in topic (empty topic), exiting...".toList,
          consumerShutdownNotice]
  | .gotMsg _ => []
  | .recvErr _ => []

/-- Result of awaiting one task in the `JoinSet`: either the task ran to
completion with its own `Result`, or joining failed (the task panicked or
was cancelled). -/
inductive JoinOutcome (α : Type) where
  | ok (val : α)
  | joinFailure (msg : String)
deriving DecidableEq, Repr

/-- The drain loop of the message processor
(`src/op/produce_op.rs` lines 154-159): `if let Err(e) = result` matches
only the outer join result, so a line is printed to stderr only for a
failed join; a task that completed with an application error
(`Ok(Err(_))`) prints nothing. -/
def drainStderr : List (JoinOutcome (Except PulsarCatError Unit)) → List String
  | [] => []
  | r :: rest =>
    (match r with
     | .joinFailure e => ["Error in message processing task: " ++ e]
     | .ok _ => []) ++ drainStderr rest

/-!
Step-relation model of the concurrent produce pipeline of `run_produce`
(`src/op/produce_op.rs`): the stdin reader task (lines 59-86), the bounded
line channel of capacity 100 (line 53), the message processor task with its
`JoinSet` (lines 100-160), the shutdown broadcast (lines 54 and 162-179),
and the final joins of `run_produce` (lines 181-192).
-/

/-- The shared variables of `run_produce` visible across its tasks. -/
structure PState where
  input : List (List Char)
  queue : List (List Char)
  readerDone : Bool
  inputDoneSignaled : Bool
  shutdownTriggered : Bool
  unitsSpawned : Nat
  unitsJoined : Nat
  processorDone : Bool
  mainDone : Bool
deriving DecidableEq, Repr

/-- Labels of the pipeline steps. -/
inductive PLabel where
  | readLine (l : List Char)
  | skipEmpty
  | readerEof
  | triggerShutdown
  | dequeueLine (l : List Char)
  | joinUnit
  | processorFinish
  | mainFinish
deriving DecidableEq, Repr

/-- Initial state of `run_produce` once the producer is built: the whole
stdin contents are still unread and every counter and flag is clear. -/
def initState (inp : List (List Char)) : PState :=
  ⟨inp, [], false, false, false, 0, 0, false, false⟩

/-- One step of the produce pipeline.  Guards are taken from the source:
the stdin reader (`src/op/produce_op.rs` lines 59-86) reads until EOF or a
read error, skipping empty lines, and `blocking_send` blocks on a full
queue — no guard consults the shutdown broadcast, which the reader does not
subscribe to.  The message processor (lines 100-160) dequeues while the
channel yields lines — its `while let Some(line) = recv()` likewise never
consults the shutdown broadcast — spawning one unit per line, and after the
channel is closed (reader done) and drained it joins every spawned unit
before finishing.  The broadcast (lines 166-179) can be triggered at any
time (interrupt), and at the latest once input is exhausted; `run_produce`
returns only after the select fired and both tasks were joined. -/
inductive PStep : PState → PLabel → PState → Prop where
  | readLine (s : PState) (l : List Char) (rest : List (List Char))
      (hin : s.input = l :: rest) (hne : l ≠ [])
      (hcap : s.queue.length < 100) (hrd : s.readerDone = false) :
      PStep s (.readLine l) { s with input := rest, queue := s.queue ++ [l] }
  | skipEmpty (s : PState) (rest : List (List Char))
      (hin : s.input = [] :: rest) (hrd : s.readerDone = false) :
      PStep s .skipEmpty { s with input := rest }
  | readerEof (s : PState) (hin : s.input = []) (hrd : s.readerDone = false) :
      PStep s .readerEof { s with readerDone := true, inputDoneSignaled := true }
  | triggerShutdown (s : PState) (h : s.shutdownTriggered = false) :
      PStep s .triggerShutdown { s with shutdownTriggered := true }
  | dequeueLine (s : PState) (l : List Char) (rest : List (List Char))
      (hq : s.queue = l :: rest) (hp : s.processorDone = false) :
      PStep s (.dequeueLine l)
        { s with queue := rest, unitsSpawned := s.unitsSpawned + 1 }
  | joinUnit (s : PState) (hq : s.queue = []) (hrd : s.readerDone = true)
      (hj : s.unitsJoined < s.unitsSpawned) (hp : s.processorDone = false) :
      PStep s .joinUnit { s with unitsJoined := s.unitsJoined + 1 }
  | processorFinish (s : PState) (hq : s.queue = []) (hrd : s.readerDone = true)
      (hj : s.unitsJoined = s.unitsSpawned) (hp : s.processorDone = false) :
      PStep s .processorFinish { s with processorDone := true }
  | mainFinish (s : PState) (hsh : s.shutdownTriggered = true)
      (hrd : s.readerDone = true) (hp : s.processorDone = true)
      (hm : s.mainDone = false) :
      PStep s .mainFinish { s with mainDone := true }

/-- Reachability along pipeline steps. -/
inductive Reaches : PState → PState → Prop where
  | refl (s : PState) : Reaches s s
  | step {s t u : PState} {lab : PLabel}
      (hr : Reaches s t) (hs : PStep t lab u) : Reaches s u

/-- The labels by which new work enters the pipeline: the reader taking a
line from stdin, and the processor dequeuing a line and spawning a unit. -/
def intakeLabel : PLabel → Bool
  | .readLine _ => true
  | .dequeueLine _ => true
  | _ => false

/-- Pipeline invariant: a finished processor has joined every spawned unit
with the channel closed and drained, and a finished `run_produce` implies a
finished processor and reader after the shutdown broadcast. -/
def PInv (s : PState) : Prop :=
  (s.processorDone = true →
    s.unitsJoined = s.unitsSpawned ∧ s.queue = [] ∧ s.readerDone = true)
  ∧ (s.mainDone = true →
    s.processorDone = true ∧ s.readerDone = true ∧ s.shutdownTriggered = true)

/-!
Trace model of one send unit of the produce pipeline
(`src/op/produce_op.rs` lines 106-151): each spawned task acquires the
shared producer mutex as its first action (line 108) and holds it while it
parses the line, builds the message, submits it non-blockingly and awaits
the acknowledgment, releasing the lock only when the task ends.
-/

/-- The actions of one send unit, in program order. -/
inductive UnitAction where
  | lockAcquire
  | parseStep
  | buildMessage
  | submitMsg
  | ackResolve
  | lockRelease
deriving DecidableEq, Repr

/-- The body of a spawned send unit (`src/op/produce_op.rs` lines 106-151):
lock the producer, parse, build, submit, await the ack, release. -/
def sendUnitBody : List UnitAction :=
  [.lockAcquire, .parseStep, .buildMessage, .submitMsg, .ackResolve, .lockRelease]

/-- Mutex admissibility of an action: acquiring requires a free lock,
releasing requires being the holder, all other actions are internal to the
task and unconstrained (exclusion during them is to be proved, not
assumed). -/
def lockGuard (h : Option Nat) (i : Nat) : UnitAction → Prop
  | .lockAcquire => h = none
  | .lockRelease => h = some i
  | _ => True

/-- Lock holder after an action. -/
def newHolder (h : Option Nat) (i : Nat) : UnitAction → Option Nat
  | .lockAcquire => some i
  | .lockRelease => none
  | _ => h

/-- Advance the program counter of unit `i`. -/
def bumpProg (prog : Nat → Nat) (i : Nat) : Nat → Nat :=
  fun j => if j = i then prog j + 1 else prog j

/-- `Runnable prog h tr`: from the state where unit `i` has executed its
first `prog i` actions and the producer mutex is held by `h`, the
interleaved event trace `tr` is an admissible schedule of the send units:
each event is the next action of its unit's body and respects the mutex. -/
inductive Runnable : (Nat → Nat) → Option Nat → List (Nat × UnitAction) → Prop where
  | done (prog : Nat → Nat) (h : Option Nat) : Runnable prog h []
  | step {prog : Nat → Nat} {h : Option Nat} {i : Nat} {a : UnitAction}
      {tr : List (Nat × UnitAction)}
      (hprog : sendUnitBody.get? (prog i) = some a)
      (hlock : lockGuard h i a)
      (hrest : Runnable (bumpProg prog i) (newHolder h i a) tr) :
      Runnable prog h ((i, a) :: tr)

/-- A unit strictly between its acquire and its release is the lock
holder. -/
def HolderInv (prog : Nat → Nat) (h : Option Nat) : Prop :=
  ∀ i, 1 ≤ prog i → prog i ≤ 5 → h = some i

theorem body_get_lt {k : Nat} {a : UnitAction}
    (h : sendUnitBody.get? k = some a) : k < 6 := by
  by_contra hk
  push_neg at hk
  have hnone : sendUnitBody.get? k = none := by
    apply List.get?_eq_none.mpr
    simpa [sendUnitBody] using hk
  rw [hnone] at h
  exact absurd h (by simp)

theorem body_cases {k : Nat} {a : UnitAction}
    (h : sendUnitBody.get? k = some a) :
    (k = 0 ∧ a = .lockAcquire) ∨ (k = 1 ∧ a = .parseStep)
    ∨ (k = 2 ∧ a = .buildMessage) ∨ (k = 3 ∧ a = .submitMsg)
    ∨ (k = 4 ∧ a = .ackResolve) ∨ (k = 5 ∧ a = .lockRelease) := by
  have hk : k < 6 := body_get_lt h
  interval_cases k <;> simp_all [sendUnitBody]

/-!
Formal renderings of the claims that the code refutes, stated exactly as
the specification puts them so that a counterexample can negate them.
-/

/-- Claim C2 as stated: once the shutdown signal is triggered, no further
intake step (the reader taking a line, the pipeline dequeuing a line)
occurs in any reachable execution of the produce pipeline. -/
def c2Statement : Prop :=
  ∀ (inp : List (List Char)) (s s' : PState) (lab : PLabel),
    Reaches (initState inp) s → s.shutdownTriggered = true →
    PStep s lab s' → intakeLabel lab = false

/-- Claim C3 as stated: in streaming with early exit and at least one
message received, every receive uses a 500 ms timeout, and a timed-out
receive terminates the loop exactly when the idle duration exceeds the
1000 ms idle threshold. -/
def c3Statement : Prop :=
  recvTimeoutMs true = some 500
  ∧ ∀ (display : DisplayOpts) (last now : Nat),
      ((loopIter true display ⟨true, last⟩ now .timedOut).breaks = true
        ↔ now - last > MAX_IDLE_TIME)

/-- Claim C4 as stated: enforcing a key with no delimiter configured is
rejected by startup validation. -/
def c4Statement : Prop :=
  ∀ opts : ProducerOpts, opts.enforce_key = true → opts.key = none →
    ∃ e, ProducerOpts.validate opts = .error e

/-- Claim C7 as stated: in the streaming loop, an end-of-stream signal and
a broker receive error each end the loop (transition to draining) in both
early-exit and non-early-exit modes. -/
def c7Statement : Prop :=
  ∀ (ee : Bool) (display : DisplayOpts) (st : LoopState) (now : Nat)
    (e : String),
    (loopIter ee display st now .streamEnd).breaks = true
    ∧ (loopIter ee display st now (.recvErr e)).breaks = true

/-- A complete schedule of two send units, the second acquiring the
producer mutex only after the first released it. -/
def lockStepTrace : List (Nat × UnitAction) :=
  [(0, .lockAcquire), (0, .parseStep), (0, .buildMessage), (0, .submitMsg),
   (0, .ackResolve), (0, .lockRelease),
   (1, .lockAcquire), (1, .parseStep), (1, .buildMessage), (1, .submitMsg),
   (1, .ackResolve), (1, .lockRelease)]

/-! ## Supporting lemmas -/

theorem occursAt_nil (d : List Char) (p : Nat) :
    occursAt d [] p ↔ d = [] := by
  unfold occursAt
  cases d with
  | nil => simp [List.isPrefixOf]
  | cons c t => simp [List.isPrefixOf]

theorem occursAt_cons_succ (d : List Char) (c : Char) (t : List Char) (p : Nat) :
    occursAt d (c :: t) (p + 1) ↔ occursAt d t p := by
  unfold occursAt
  simp

theorem findSub_eq_some_iff (d l : List Char) (p : Nat) :
    findSub d l = some p ↔ (occursAt d l p ∧ ∀ q, q < p → ¬ occursAt d l q) := by
  induction l generalizing p with
  | nil =>
    unfold findSub
    by_cases h : d.isPrefixOf ([] : List Char)
    · simp only [h, if_true]
      constructor
      · rintro h0
        injection h0 with h0
        subst h0
        exact ⟨h, fun q hq => absurd hq (Nat.not_lt_zero q)⟩
      · rintro ⟨hocc, hmin⟩
        have hd : d = [] := by
          cases d with
          | nil => rfl
          | cons a b => simp [List.isPrefixOf] at h
        subst hd
        have hnp : ¬ (0 < p) := fun hp => hmin 0 hp (by simp [occursAt, List.isPrefixOf])
        have hp0 : p = 0 := by omega
        subst hp0
        rfl
    · simp only [h, if_false]
      constructor
      · intro hc; exact absurd hc (by simp)
      · rintro ⟨hocc, _⟩
        rw [occursAt_nil] at hocc
        subst hocc
        simp [List.isPrefixOf] at h
  | cons c t ih =>
    unfold findSub
    by_cases h : d.isPrefixOf (c :: t)
    · simp only [h, if_true]
      constructor
      · rintro h0
        injection h0 with h0
        subst h0
        exact ⟨h, fun q hq => absurd hq (Nat.not_lt_zero q)⟩
      · rintro ⟨hocc, hmin⟩
        rcases Nat.eq_zero_or_pos p with hp | hp
        · simp [hp]
        · exact absurd (hmin 0 hp (by simpa [occursAt] using h)) (by simp)
    · simp only [h, if_false]
      constructor
      · intro hmap
        rcases Option.map_eq_some'.mp hmap with ⟨q, hq, hqp⟩
        subst hqp
        rcases (ih q).mp hq with ⟨hocc, hmin⟩
        refine ⟨(occursAt_cons_succ d c t q).mpr hocc, ?_⟩
        intro r hr
        cases r with
        | zero => simpa [occursAt] using h
        | succ r' =>
          rw [occursAt_cons_succ]
          exact hmin r' (by omega)
      · rintro ⟨hocc, hmin⟩
        cases p with
        | zero => exact absurd (by simpa [occursAt] using hocc) h
        | succ p' =>
          have hocc' : occursAt d t p' := (occursAt_cons_succ d c t p').mp hocc
          have hmin' : ∀ q, q < p' → ¬ occursAt d t q := by
            intro q hq hcontra
            exact hmin (q + 1) (by omega) ((occursAt_cons_succ d c t q).mpr hcontra)
          rw [(ih p').mpr ⟨hocc', hmin'⟩]
          rfl

theorem findSub_eq_none_iff (d l : List Char) :
    findSub d l = none ↔ ∀ p, ¬ occursAt d l p := by
  induction l with
  | nil =>
    unfold findSub
    by_cases h : d.isPrefixOf ([] : List Char)
    · simp only [h, if_true]
      constructor
      · intro hc; exact absurd hc (by simp)
      · intro hall
        exact absurd (by simpa [occursAt] using h) (hall 0)
    · simp only [h, if_false]
      refine ⟨fun _ p hc => ?_, fun _ => rfl⟩
      rw [occursAt_nil] at hc
      subst hc
      simp [List.isPrefixOf] at h
  | cons c t ih =>
    unfold findSub
    by_cases h : d.isPrefixOf (c :: t)
    · simp only [h, if_true]
      constructor
      · intro hc; exact absurd hc (by simp)
      · intro hall
        exact absurd (by simpa [occursAt] using h) (hall 0)
    · simp only [h, if_false]
      constructor
      · intro hmap p hc
        have ht : findSub d t = none := by
          cases hft : findSub d t with
          | none => rfl
          | some q => rw [hft] at hmap; exact absurd hmap (by simp)
        cases p with
        | zero => exact absurd (by simpa [occursAt] using hc) h
        | succ p' => exact (ih.mp ht) p' ((occursAt_cons_succ d c t p').mp hc)
      · intro hall
        have : ∀ p, ¬ occursAt d t p := by
          intro p hc
          exact hall (p + 1) ((occursAt_cons_succ d c t p).mpr hc)
        rw [ih.mpr this]
        rfl

theorem pinv_init (inp : List (List Char)) : PInv (initState inp) := by
  simp [PInv, initState]

theorem pinv_step {s s' : PState} {lab : PLabel}
    (hinv : PInv s) (hstep : PStep s lab s') : PInv s' := by
  obtain ⟨hproc, hmain⟩ := hinv
  cases hstep with
  | readLine l rest hin hne hcap hrd =>
    refine ⟨fun hp => ?_, fun hm => ?_⟩
    · rcases hproc hp with ⟨_, _, hr⟩
      rw [hrd] at hr
      exact absurd hr (by simp)
    · rcases hmain hm with ⟨_, hr, _⟩
      rw [hrd] at hr
      exact absurd hr (by simp)
  | skipEmpty rest hin hrd =>
    exact ⟨fun hp => hproc hp, fun hm => hmain hm⟩
  | readerEof hin hrd =>
    refine ⟨fun hp => ?_, fun hm => ?_⟩
    · rcases hproc hp with ⟨h1, h2, _⟩
      exact ⟨h1, h2, rfl⟩
    · rcases hmain hm with ⟨h1, _, h3⟩
      exact ⟨h1, rfl, h3⟩
  | triggerShutdown h =>
    refine ⟨fun hp => hproc hp, fun hm => ?_⟩
    rcases hmain hm with ⟨h1, h2, _⟩
    exact ⟨h1, h2, rfl⟩
  | dequeueLine l rest hq hp' =>
    refine ⟨fun hp => ?_, fun hm => ?_⟩
    · rw [hp'] at hp
      exact absurd hp (by simp)
    · rcases hmain hm with ⟨h1, _, _⟩
      rw [hp'] at h1
      exact absurd h1 (by simp)
  | joinUnit hq hrd hj hp' =>
    refine ⟨fun hp => ?_, fun hm => ?_⟩
    · rw [hp'] at hp
      exact absurd hp (by simp)
    · rcases hmain hm with ⟨h1, _, _⟩
      rw [hp'] at h1
      exact absurd h1 (by simp)
  | processorFinish hq hrd hj hp' =>
    refine ⟨fun _ => ⟨hj, hq, hrd⟩, fun hm => ?_⟩
    rcases hmain hm with ⟨h1, _, _⟩
    rw [hp'] at h1
    exact absurd h1 (by simp)
  | mainFinish hsh hrd hp' hm' =>
    exact ⟨fun _ => hproc hp', fun _ => ⟨hp', hrd, hsh⟩⟩

theorem pinv_reaches {inp : List (List Char)} {s : PState}
    (h : Reaches (initState inp) s) : PInv s := by
  induction h with
  | refl => exact pinv_init inp
  | step hr hs ih => exact pinv_step ih hs

theorem bumpProg_self (prog : Nat → Nat) (i : Nat) :
    bumpProg prog i i = prog i + 1 := by
  simp [bumpProg]

theorem bumpProg_other (prog : Nat → Nat) {i j : Nat} (hji : j ≠ i) :
    bumpProg prog i j = prog j := by
  simp [bumpProg, hji]

theorem holderInv_step {prog : Nat → Nat} {h : Option Nat} {i : Nat}
    {a : UnitAction} (hinv : HolderInv prog h)
    (hprog : sendUnitBody.get? (prog i) = some a)
    (hlock : lockGuard h i a) :
    HolderInv (bumpProg prog i) (newHolder h i a) := by
  rcases body_cases hprog with ⟨hp, ha⟩|⟨hp, ha⟩|⟨hp, ha⟩|⟨hp, ha⟩|⟨hp, ha⟩|⟨hp, ha⟩
    <;> subst ha
  · -- lockAcquire: the lock was free, so no unit was mid-critical
    simp only [lockGuard] at hlock
    intro j h1 h5
    by_cases hji : j = i
    · simp [newHolder, hji]
    · rw [bumpProg_other prog hji] at h1 h5
      have := hinv j h1 h5
      rw [hlock] at this
      exact absurd this (by simp)
  · -- parseStep: holder stays `some i`
    intro j h1 h5
    have hhi : h = some i := hinv i (by omega) (by omega)
    by_cases hji : j = i
    · simpa [newHolder, hji] using hhi
    · rw [bumpProg_other prog hji] at h1 h5
      have := (hinv j h1 h5).symm.trans hhi
      injection this with this
      exact absurd this hji
  · -- buildMessage
    intro j h1 h5
    have hhi : h = some i := hinv i (by omega) (by omega)
    by_cases hji : j = i
    · simpa [newHolder, hji] using hhi
    · rw [bumpProg_other prog hji] at h1 h5
      have := (hinv j h1 h5).symm.trans hhi
      injection this with this
      exact absurd this hji
  · -- submitMsg
    intro j h1 h5
    have hhi : h = some i := hinv i (by omega) (by omega)
    by_cases hji : j = i
    · simpa [newHolder, hji] using hhi
    · rw [bumpProg_other prog hji] at h1 h5
      have := (hinv j h1 h5).symm.trans hhi
      injection this with this
      exact absurd this hji
  · -- ackResolve
    intro j h1 h5
    have hhi : h = some i := hinv i (by omega) (by omega)
    by_cases hji : j = i
    · simpa [newHolder, hji] using hhi
    · rw [bumpProg_other prog hji] at h1 h5
      have := (hinv j h1 h5).symm.trans hhi
      injection this with this
      exact absurd this hji
  · -- lockRelease: unit i leaves its critical section
    simp only [lockGuard] at hlock
    intro j h1 h5
    by_cases hji : j = i
    · subst hji
      rw [bumpProg_self prog j, hp] at h5
      omega
    · rw [bumpProg_other prog hji] at h1 h5
      have := (hinv j h1 h5).symm.trans hlock
      injection this with this
      exact absurd this hji

/-- While unit `i` is mid-critical (acquired, not yet released), the next
admissible event belongs to `i`: every other unit is blocked on the
mutex. -/
theorem holder_acts_next {prog : Nat → Nat} {h : Option Nat} {x i : Nat}
    {a : UnitAction} (hinv : HolderInv prog h)
    (hprog : sendUnitBody.get? (prog x) = some a)
    (hlock : lockGuard h x a)
    (hh : h = some i) : x = i := by
  rcases body_cases hprog with ⟨hp, ha⟩|⟨hp, ha⟩|⟨hp, ha⟩|⟨hp, ha⟩|⟨hp, ha⟩|⟨hp, ha⟩
    <;> subst ha
  · simp only [lockGuard] at hlock
    rw [hh] at hlock
    exact absurd hlock (by simp)
  · exact Option.some.inj ((hinv x (by omega) (by omega)).symm.trans hh)
  · exact Option.some.inj ((hinv x (by omega) (by omega)).symm.trans hh)
  · exact Option.some.inj ((hinv x (by omega) (by omega)).symm.trans hh)
  · exact Option.some.inj ((hinv x (by omega) (by omega)).symm.trans hh)
  · simp only [lockGuard] at hlock
    rw [hh] at hlock
    exact (Option.some.inj hlock).symm

theorem formatScan_eq_aux (a : FmtArgs) :
    ∀ (n : Nat) (fmt : List Char), fmt.length ≤ n →
      formatScan a fmt false = formatSpec a fmt := by
  intro n
  induction n with
  | zero =>
    intro fmt hlen
    have hnil : fmt = [] := List.eq_nil_of_length_eq_zero (by omega)
    subst hnil
    rfl
  | succ n ih =>
    intro fmt hlen
    match fmt with
    | [] => rfl
    | c :: rest =>
      by_cases hc : c = '%'
      · subst hc
        match rest with
        | [] => rfl
        | d :: rest2 =>
          have ihr := ih rest2 (by simp at hlen; omega)
          simp [formatScan, formatSpec, ihr]
      · have ihr := ih rest (by simp at hlen; omega)
        match rest with
        | [] => simp [formatScan, formatSpec, hc]
        | d :: rest2 => simp [formatScan, formatSpec, hc, ← ihr]

theorem ackPrecedesNextSubmit {prog : Nat → Nat} {h : Option Nat}
    {tr : List (Nat × UnitAction)} (hrun : Runnable prog h tr) :
    HolderInv prog h →
    ∀ m n i j, i ≠ j → m < n →
      tr.get? m = some (i, .submitMsg) → tr.get? n = some (j, .submitMsg) →
      ∃ k, m < k ∧ k < n ∧ tr.get? k = some (i, .ackResolve) := by
  induction hrun with
  | done prog h =>
    intro _ m n i j _ _ hm _
    simp at hm
  | @step prog h x a tr hprog hlock hrest ih =>
    intro hinv m n i j hij hmn hm hn
    have hinv2 := holderInv_step hinv hprog hlock
    cases m with
    | zero =>
      have hsome : some (x, a) = some (i, UnitAction.submitMsg) := by
        simpa using hm
      have hpair := Option.some.inj hsome
      have hx : x = i := congrArg Prod.fst hpair
      have ha : a = UnitAction.submitMsg := congrArg Prod.snd hpair
      subst hx
      subst ha
      cases n with
      | zero => omega
      | succ n2 =>
        have hn2 : tr.get? n2 = some (j, UnitAction.submitMsg) := by
          simpa using hn
        have hp3 : prog x = 3 := by
          rcases body_cases hprog with
            ⟨hp, hb⟩|⟨hp, hb⟩|⟨hp, hb⟩|⟨hp, hb⟩|⟨hp, hb⟩|⟨hp, hb⟩
            <;> first | exact hp | exact absurd hb (by simp)
        have hhx : h = some x := hinv x (by omega) (by omega)
        cases hrest with
        | done => simp at hn2
        | step hprog2 hlock2 hrest2 =>
          rename_i y b tr2
          have hy : y = x :=
            holder_acts_next hinv2 hprog2 hlock2
              (by simpa [newHolder] using hhx)
          subst hy
          have hb : b = UnitAction.ackResolve := by
            have h4 : sendUnitBody.get? (bumpProg prog y y) = some b := hprog2
            rw [bumpProg_self, hp3] at h4
            have h5 : sendUnitBody.get? (3 + 1) = some UnitAction.ackResolve :=
              rfl
            rw [h5] at h4
            exact (Option.some.inj h4).symm
          subst hb
          cases n2 with
          | zero => simp at hn2
          | succ n3 => exact ⟨1, by omega, by omega, rfl⟩
    | succ m2 =>
      cases n with
      | zero => omega
      | succ n2 =>
        have hm2 : tr.get? m2 = some (i, UnitAction.submitMsg) := by
          simpa using hm
        have hn2 : tr.get? n2 = some (j, UnitAction.submitMsg) := by
          simpa using hn
        obtain ⟨k, hk1, hk2, hk3⟩ := ih hinv2 m2 n2 i j hij (by omega) hm2 hn2
        exact ⟨k + 1, by omega, by omega, by simpa using hk3⟩

theorem lockStepTrace_runnable : Runnable (fun _ => 0) none lockStepTrace :=
  .step rfl rfl (.step rfl True.intro (.step rfl True.intro
    (.step rfl True.intro (.step rfl True.intro (.step rfl rfl
    (.step rfl rfl (.step rfl True.intro (.step rfl True.intro
    (.step rfl True.intro (.step rfl True.intro (.step rfl rfl
    (.done _ _))))))))))))

/-! ## Claims -/

/-- Claim C1: for every input line and configured delimiter occurring first
at position `p`, the parser splits there — key is the prefix before `p`,
payload everything after the consumed delimiter — so the consumed delimiter
appears in neither the key (which holds no occurrence at all) nor between
the parts, and any later occurrence stays intact inside the payload; with
no delimiter configured, or the delimiter absent and enforcement off, the
key is `none` and the payload the entire line. -/
theorem c1_split_at_first_occurrence (d l : List Char) (enf : Bool) (p : Nat)
    (hocc : occursAt d l p) (hfirst : ∀ q, q < p → ¬ occursAt d l q) :
    parse_line (some d) enf l
      = .ok (some (l.take p), l.drop (p + d.length))
    ∧ l = l.take p ++ (d ++ l.drop (p + d.length))
    ∧ (d ≠ [] → ∀ q, ¬ occursAt d (l.take p) q)
    ∧ (∀ q, p + d.length ≤ q → occursAt d l q →
        occursAt d (l.drop (p + d.length)) (q - (p + d.length)))
    ∧ (∀ (line : List Char) (e : Bool), parse_line none e line = .ok (none, line))
    ∧ (∀ line : List Char, (∀ q, ¬ occursAt d line q) →
        parse_line (some d) false line = .ok (none, line)) := by
  have hfind : findSub d l = some p :=
    (findSub_eq_some_iff d l p).mpr ⟨hocc, hfirst⟩
  have hpre : d <+: l.drop p := List.isPrefixOf_iff_prefix.mp hocc
  refine ⟨?_, ?_, ?_, ?_, ?_, ?_⟩
  · simp [parse_line, hfind]
  · have hdecomp : l.drop p = d ++ l.drop (p + d.length) := by
      have h2 := List.prefix_iff_eq_append.mp hpre
      rw [List.drop_drop] at h2
      exact h2.symm
    conv_lhs => rw [← List.take_append_drop p l, hdecomp]
  · intro hd q hq
    have hqpre : d <+: (l.take p).drop q := List.isPrefixOf_iff_prefix.mp hq
    have hlen : p ≤ l.length := by
      by_contra hpl
      push_neg at hpl
      have hz : l.drop p = [] := List.drop_eq_nil_of_le (le_of_lt hpl)
      rw [hz] at hpre
      exact hd (List.prefix_nil.mp hpre)
    have hql : q < p := by
      by_contra hqp
      push_neg at hqp
      have hz : (l.take p).drop q = [] := by
        apply List.drop_eq_nil_of_le
        rw [List.length_take]
        omega
      rw [hz] at hqpre
      exact hd (List.prefix_nil.mp hqpre)
    apply hfirst q hql
    apply List.isPrefixOf_iff_prefix.mpr
    exact hqpre.trans ((List.take_prefix p l).drop q)
  · intro q hq hqocc
    have harith : p + d.length + (q - (p + d.length)) = q := by omega
    unfold occursAt at hqocc ⊢
    rw [List.drop_drop, harith]
    exact hqocc
  · intro line e
    rfl
  · intro line hnone
    have hf : findSub d line = none := (findSub_eq_none_iff d line).mpr hnone
    simp [parse_line, hf]

/-- Witness for C1 at the line `a:b:c` with delimiter `:`: the split is at
the first colon, the later colon staying unsplit inside the payload. -/
theorem c1_split_witness :
    parse_line (some [':']) true ['a', ':', 'b', ':', 'c']
      = .ok (some ['a'], ['b', ':', 'c']) := by
  have h := c1_split_at_first_occurrence [':'] ['a', ':', 'b', ':', 'c']
    true 1 (by decide) (by decide)
  exact h.1

/-- Claim C2 counterexample: the claim that the shutdown signal stops the
reader and the pipeline is false — neither task subscribes to the
broadcast.  In the concrete execution that reads `a`, triggers the shutdown
broadcast, and then dequeues `a`, a dequeue step happens from a state with
the signal already triggered. -/
theorem c2_counterexample_dequeue_after_shutdown : ¬ c2Statement := by
  intro hclaim
  have hr1 : PStep (initState [['a'], ['b']]) (.readLine ['a'])
      ⟨[['b']], [['a']], false, false, false, 0, 0, false, false⟩ :=
    PStep.readLine _ ['a'] [['b']] rfl (by decide) (by decide) rfl
  have hr2 : PStep
      (⟨[['b']], [['a']], false, false, false, 0, 0, false, false⟩ : PState)
      .triggerShutdown
      ⟨[['b']], [['a']], false, false, true, 0, 0, false, false⟩ :=
    PStep.triggerShutdown _ rfl
  have hreach : Reaches (initState [['a'], ['b']])
      ⟨[['b']], [['a']], false, false, true, 0, 0, false, false⟩ :=
    Reaches.step (Reaches.step (Reaches.refl _) hr1) hr2
  have hd : PStep
      (⟨[['b']], [['a']], false, false, true, 0, 0, false, false⟩ : PState)
      (.dequeueLine ['a'])
      ⟨[['b']], [], false, false, true, 1, 0, false, false⟩ :=
    PStep.dequeueLine _ ['a'] [] rfl rfl
  have hfalse := hclaim [['a'], ['b']] _ _ (.dequeueLine ['a']) hreach rfl hd
  simp [intakeLabel] at hfalse

/-- Claim C2 amended: the shutdown broadcast is not observed by the stdin
reader or the send pipeline — the reader stops only at end of input and the
pipeline keeps dequeuing (its dequeue step is enabled by queue contents and
an unfinished processor alone, independent of the signal) until the channel
is closed and drained; every already-spawned send unit is, however, awaited
to completion before the produce operation is declared finished. -/
theorem c2_amended_drain_before_finish :
    (∀ (inp : List (List Char)) (s : PState),
      Reaches (initState inp) s → s.mainDone = true →
      s.unitsJoined = s.unitsSpawned ∧ s.processorDone = true
        ∧ s.readerDone = true ∧ s.queue = [])
    ∧ (∀ (s : PState) (l : List Char) (rest : List (List Char)),
        s.queue = l :: rest → s.processorDone = false →
        PStep s (.dequeueLine l)
          { s with queue := rest, unitsSpawned := s.unitsSpawned + 1 }) := by
  constructor
  · intro inp s hreach hmain
    obtain ⟨hproc, hmainc⟩ := pinv_reaches hreach
    obtain ⟨h1, h2, _⟩ := hmainc hmain
    obtain ⟨h3, h4, _⟩ := hproc h1
    exact ⟨h3, h1, h2, h4⟩
  · intro s l rest hq hp
    exact PStep.dequeueLine s l rest hq hp

/-- Witness for the amended C2 on the complete run over input `a`: read,
end of input, shutdown, dequeue, join the one unit, finish the processor,
finish the operation — at the end the one spawned unit has been joined. -/
theorem c2_amended_drain_witness :
    (⟨[], [], true, true, true, 1, 1, true, true⟩ : PState).unitsJoined
      = (⟨[], [], true, true, true, 1, 1, true, true⟩ : PState).unitsSpawned := by
  have h1 : PStep (initState [['a']]) (.readLine ['a'])
      ⟨[], [['a']], false, false, false, 0, 0, false, false⟩ :=
    PStep.readLine _ ['a'] [] rfl (by decide) (by decide) rfl
  have h2 : PStep (⟨[], [['a']], false, false, false, 0, 0, false, false⟩ : PState)
      .readerEof ⟨[], [['a']], true, true, false, 0, 0, false, false⟩ :=
    PStep.readerEof _ rfl rfl
  have h3 : PStep (⟨[], [['a']], true, true, false, 0, 0, false, false⟩ : PState)
      .triggerShutdown ⟨[], [['a']], true, true, true, 0, 0, false, false⟩ :=
    PStep.triggerShutdown _ rfl
  have h4 : PStep (⟨[], [['a']], true, true, true, 0, 0, false, false⟩ : PState)
      (.dequeueLine ['a']) ⟨[], [], true, true, true, 1, 0, false, false⟩ :=
    PStep.dequeueLine _ ['a'] [] rfl rfl
  have h5 : PStep (⟨[], [], true, true, true, 1, 0, false, false⟩ : PState)
      .joinUnit ⟨[], [], true, true, true, 1, 1, false, false⟩ :=
    PStep.joinUnit _ rfl rfl (by decide) rfl
  have h6 : PStep (⟨[], [], true, true, true, 1, 1, false, false⟩ : PState)
      .processorFinish ⟨[], [], true, true, true, 1, 1, true, false⟩ :=
    PStep.processorFinish _ rfl rfl rfl rfl
  have h7 : PStep (⟨[], [], true, true, true, 1, 1, true, false⟩ : PState)
      .mainFinish ⟨[], [], true, true, true, 1, 1, true, true⟩ :=
    PStep.mainFinish _ rfl rfl rfl rfl
  have hreach : Reaches (initState [['a']])
      ⟨[], [], true, true, true, 1, 1, true, true⟩ :=
    Reaches.step (Reaches.step (Reaches.step (Reaches.step (Reaches.step
      (Reaches.step (Reaches.step (Reaches.refl _) h1) h2) h3) h4) h5) h6) h7
  exact (c2_amended_drain_before_finish.1 [['a']] _ hreach rfl).1

/-- Claim C3 counterexample: the claimed constants are wrong — the receive
timeout is `TIMEOUT_DURATION` = 300 ms, not 500 ms (and a timed-out receive
in fact terminates at idle > `MAX_IDLE_TIME / 2` = 500 ms, e.g. already at
an idle duration of 600 ms, below the claimed 1000 ms threshold). -/
theorem c3_counterexample_constants : ¬ c3Statement := by
  rintro ⟨h1, h2⟩
  have h600 := (h2 ⟨none, false⟩ 0 600).mp (by decide)
  simp [MAX_IDLE_TIME] at h600

/-- Claim C3 amended: with early exit enabled and at least one message
received, every receive attempt uses the 300 ms `TIMEOUT_DURATION`, and an
iteration whose receive timed out terminates (goes on to drain) exactly
when the idle duration `now - last_message_time` exceeds
`MAX_IDLE_TIME / 2` = 500 ms — half the 1000 ms idle threshold, which is
itself applied only by the pre-receive check and the periodic sleep arm. -/
theorem c3_amended_timeout_thresholds :
    recvTimeoutMs true = some TIMEOUT_DURATION
    ∧ TIMEOUT_DURATION = 300
    ∧ ∀ (display : DisplayOpts) (last now : Nat),
        ((loopIter true display ⟨true, last⟩ now .timedOut).breaks = true
          ↔ now - last > MAX_IDLE_TIME / 2) := by
  refine ⟨rfl, rfl, ?_⟩
  intro display last now
  simp only [loopIter, MAX_IDLE_TIME]
  by_cases h1 : now - last > 1000
  · simp [h1]
    omega
  · simp [h1]
    by_cases h2 : now - last > 500 <;> simp [h2]

/-- Claim C4 counterexample: startup validation does not reject enforcing a
key without a delimiter — `ProducerOpts::validate` returns `Ok` for every
option set, including `enforce_key` with no key delimiter. -/
theorem c4_counterexample_validate_accepts : ¬ c4Statement := by
  intro hclaim
  obtain ⟨e, he⟩ := hclaim ⟨[], none, true⟩ rfl rfl
  simp [ProducerOpts.validate] at he

/-- Claim C4 amended: startup validation checks nothing (it succeeds for
every producer option set), so enforcing a key with no delimiter is instead
detected per input line, each send unit failing at message construction —
after the client and producer are already built — with no message
submitted. -/
theorem c4_amended_per_line_detection :
    (∀ opts : ProducerOpts, ProducerOpts.validate opts = .ok ())
    ∧ (∀ line : List Char,
        processLine none true line
          = .error (.application
              "Message key is required but not provided, please use --key to set the delimiter."))
    ∧ (∀ line : List Char, submittedFor none true line = []) := by
  exact ⟨fun _ => rfl, fun _ => rfl, fun _ => rfl⟩

/-- Claim C5 (a bug in the code): a send unit that fails — here the line
`novalue` under key enforcement with delimiter `=` — submits nothing, and
the pipeline's drain loop continues past it; but contrary to the claim (and
to the intent of the drain loop's stderr report), the unit's error is never
reported: the drain matches only the outer join result, so the completed
task carrying `Err(_)` prints no stderr line, while a sibling line `k1=v1`
is still processed successfully. -/
theorem c5_unit_error_silently_discarded :
    processLine (some ['=']) true "novalue".toList
      = .error (.application
          "Key is enforced but delimiter not found in the message")
    ∧ submittedFor (some ['=']) true "novalue".toList = []
    ∧ drainStderr
        [.ok (.error (.application
          "Key is enforced but delimiter not found in the message"))] = []
    ∧ processLine (some ['=']) true "k1=v1".toList
      = .ok (some "k1".toList, "v1".toList)
    ∧ drainStderr
        [.ok (.error (.application
            "Key is enforced but delimiter not found in the message")),
         .ok (.ok ())] = [] := by
  exact ⟨rfl, rfl, rfl, rfl, rfl⟩

/-- Claim C6: `format_message` performs the single left-to-right
two-character placeholder scan the specification describes (proved as an
equivalence with `formatSpec`, the direct rendering of the spec's wording),
and on the concrete examples: a topic/payload format, an unknown
placeholder passed through literally, and a trailing percent preserved. -/
theorem c6_format_message_scan :
    (∀ (a : FmtArgs) (fmt : List Char), format_message fmt a = formatSpec a fmt)
    ∧ format_message "%t|%s".toList
        ⟨"T".toList, "msgid".toList, none, "hello".toList, 0, []⟩
      = "T|hello".toList
    ∧ format_message "100%x".toList
        ⟨"T".toList, "msgid".toList, none, "hello".toList, 0, []⟩
      = "100%x".toList
    ∧ format_message "abc%".toList
        ⟨"T".toList, "msgid".toList, none, "hello".toList, 0, []⟩
      = "abc%".toList := by
  refine ⟨?_, rfl, rfl, rfl⟩
  intro a fmt
  exact formatScan_eq_aux a fmt.length fmt (le_refl _)

/-- Claim C7 counterexample: an explicit end-of-stream does not always end
the loop — without early exit the loop prints `End of stream` and keeps
receiving (the `break` is guarded by `early_exit`). -/
theorem c7_counterexample_eos_continues : ¬ c7Statement := by
  intro hclaim
  have h := (hclaim false ⟨none, false⟩ ⟨false, 0⟩ 0 "").1
  simp [loopIter] at h

/-- Claim C7 amended: a broker receive error always ends the streaming loop
(both modes), while an explicit end-of-stream ends it only when early exit
is enabled; without early exit the loop continues. -/
theorem c7_amended_eos_needs_early_exit :
    (∀ (ee : Bool) (display : DisplayOpts) (st : LoopState) (now : Nat)
      (e : String), (loopIter ee display st now (.recvErr e)).breaks = true)
    ∧ (∀ (display : DisplayOpts) (st : LoopState) (now : Nat),
        (loopIter true display st now .streamEnd).breaks = true)
    ∧ (∀ (display : DisplayOpts) (st : LoopState) (now : Nat),
        (loopIter false display st now .streamEnd).breaks = false) := by
  refine ⟨?_, ?_, ?_⟩
  · intro ee display st now e
    simp only [loopIter]
    by_cases h : (ee && st.got_at_least_one_message
        && decide (now - st.last_message_time > MAX_IDLE_TIME)) = true
      <;> simp [h]
  · intro display st now
    simp only [loopIter]
    by_cases h : (true && st.got_at_least_one_message
        && decide (now - st.last_message_time > MAX_IDLE_TIME)) = true
      <;> simp [h]
  · intro display st now
    simp [loopIter]

/-- Claim C8: with early exit enabled, a timed-out probe (first receive)
short-circuits the whole consume run — no message rendering is ever
emitted, the consumer is closed, `run_consume` returns `Ok` (process exit
0), and, outside JSON mode, the empty-topic notice is printed. -/
theorem c8_probe_timeout_empty_topic (display : DisplayOpts) (t : Nat)
    (rest : List (Nat × RecvOutcome)) :
    (runConsumeModel true display ((t, .timedOut) :: rest)).renderings = []
    ∧ (runConsumeModel true display ((t, .timedOut) :: rest)).consumerClosed
        = true
    ∧ (runConsumeModel true display ((t, .timedOut) :: rest)).result = .ok ()
    ∧ exitCode (runConsumeModel true display ((t, .timedOut) :: rest)).result
        = 0
    ∧ (display.json = false →
        probeStdout display .timedOut
          = [emptyTopicNotice, consumerShutdownNotice]) := by
  refine ⟨rfl, rfl, rfl, rfl, fun hjson => ?_⟩
  simp [probeStdout, hjson]

/-- Witness for C8 on a concrete plain-mode run whose probe times out at
300 ms. -/
theorem c8_probe_timeout_witness :
    (runConsumeModel true ⟨none, false⟩ [(300, .timedOut)]).renderings = []
    ∧ (runConsumeModel true ⟨none, false⟩ [(300, .timedOut)]).result = .ok ()
    ∧ probeStdout ⟨none, false⟩ .timedOut
        = [emptyTopicNotice, consumerShutdownNotice] := by
  have h := c8_probe_timeout_empty_topic ⟨none, false⟩ 300 []
  exact ⟨h.1, h.2.2.1, h.2.2.2.2 rfl⟩

/-- Claim C9: because each send unit holds the producer mutex from before
message construction through submission and acknowledgment wait, the sends
of distinct lines are strictly serialized in every admissible schedule:
between two submissions by different units, the first unit's
acknowledgment has already resolved. -/
theorem c9_producer_lock_serializes (tr : List (Nat × UnitAction))
    (hrun : Runnable (fun _ => 0) none tr) (m n i j : Nat) (hij : i ≠ j)
    (hmn : m < n) (hm : tr.get? m = some (i, .submitMsg))
    (hn : tr.get? n = some (j, .submitMsg)) :
    ∃ k, m < k ∧ k < n ∧ tr.get? k = some (i, .ackResolve) :=
  ackPrecedesNextSubmit hrun
    (fun x h1 _ => absurd h1 (by simp)) m n i j hij hmn hm hn

/-- Witness for C9 on the concrete two-unit schedule: unit 0 submits at
index 3, unit 1 at index 9, and unit 0's acknowledgment indeed resolves in
between (at index 4). -/
theorem c9_serialization_witness :
    ∃ k, 3 < k ∧ k < 9 ∧ lockStepTrace.get? k
      = some (0, UnitAction.ackResolve) :=
  c9_producer_lock_serializes lockStepTrace lockStepTrace_runnable 3 9 0 1
    (by decide) (by decide) rfl rfl

/-- Claim C10: the CLI enforces no mutual exclusivity between JSON mode and
a custom format string (consumer validation accepts every option set), and
when both are configured every message is rendered as the JSON envelope —
the rendering is the same whatever the format string, which is silently
ignored. -/
theorem c10_json_takes_precedence (f g : List Char) (m : ConsumedMessage)
    (opts : ConsumerOpts) :
    renderMessage ⟨some f, true⟩ m = jsonEnvelope m
    ∧ renderMessage ⟨some f, true⟩ m = renderMessage ⟨some g, true⟩ m
    ∧ renderMessage ⟨none, true⟩ m = jsonEnvelope m
    ∧ ConsumerOpts.validate opts = .ok () := by
  exact ⟨rfl, rfl, rfl, rfl⟩

end PulsarCat
